import Mathlib

/-! # unitycn: the post feed client (`static/js/main.js`)

A shallow embedding of the two operations of `static/js/main.js`, `loadPosts`
and `createPost`, together with the part of the JavaScript semantics they rely
on (property access, optional chaining, `||`, string conversion in template
literals, `Array.prototype.join`, `JSON.stringify`).

What the host supplies (number formatting, the locale rendering of dates and
the answers of the network) is collected in `Host`; everything else is
computed.
-/

namespace UnityCN

/-! ## JavaScript values -/

/-- The values that `response.json()` can produce, and `undefined`, which is
what reading an absent property gives. Numbers are kept abstract (`ν`): the
program only formats them and tests them for truthiness, and both are left to
the host. The properties of an object are listed in property order, each key
once. -/
inductive JSValue (ν : Type) where
  | undefined : JSValue ν
  | null : JSValue ν
  | bool (b : Bool) : JSValue ν
  | number (n : ν) : JSValue ν
  | string (s : String) : JSValue ν
  | array (items : List (JSValue ν)) : JSValue ν
  | object (props : List (String × JSValue ν)) : JSValue ν

/-- The exceptions the program can meet. -/
inductive JSError where
  | typeError : JSError
  | syntaxError : JSError
  | networkError : JSError
  deriving DecidableEq, Repr

deriving instance DecidableEq for Except

/-! ## The network and the host -/

/-- The HTTP method of a request. -/
inductive Method where
  | GET : Method
  | POST : Method
  deriving DecidableEq, Repr

/-- What a call of `fetch` sends: `fetch(url)` is a `GET` without headers and
without a body. -/
structure Request where
  url : String
  method : Method
  headers : List (String × String)
  body : Option String
  deriving DecidableEq, Repr

/-- What the program reads of a response: its `ok` flag and the outcome of
`response.json()`, which rejects when the body is not JSON. -/
structure Response (ν : Type) where
  ok : Bool
  json : Except JSError (JSValue ν)

/-- What the program uses without defining it: the number primitives, the
locale rendering of a date, and the backend behind `fetch`. -/
structure Host (ν : Type) where
  /-- `Number::toString`. -/
  numberToString : ν → String
  /-- `ToBoolean` on a number: false exactly for zero and NaN. -/
  numberToBoolean : ν → Bool
  /-- Whether a number is finite. -/
  numberIsFinite : ν → Bool
  /-- `new Date(v).toLocaleString()` for a primitive `v`. -/
  dateToLocaleString : JSValue ν → String
  /-- The answer to a request, given the requests sent before it; an error is
  a rejected `fetch`. -/
  fetch : List Request → Request → Except JSError (Response ν)

/-! ## Conversions and property access -/

/-- Whether an object has an own property of the given name. -/
def hasOwn {ν : Type} (props : List (String × JSValue ν)) (key : String) : Bool :=
  props.any (fun kv => kv.1 == key)

mutual
/-- `ToString`, as a template literal applies it to a substitution. An object
parsed from JSON that has an own property `toString` has no callable
conversion left and raises a `TypeError`; any other plain object is
`[object Object]`; an array is its elements joined by commas. -/
def toStr {ν : Type} (h : Host ν) : JSValue ν → Except JSError String
  | .undefined => .ok "undefined"
  | .null => .ok "null"
  | .bool true => .ok "true"
  | .bool false => .ok "false"
  | .number x => .ok (h.numberToString x)
  | .string s => .ok s
  | .array items => joinItems h items
  | .object props =>
    if hasOwn props "toString" then .error .typeError else .ok "[object Object]"
termination_by structural v => v
/-- The body of `Array.prototype.join` with the default separator: `null` and
`undefined` elements give the empty string, every other element its
`ToString`. -/
def joinItems {ν : Type} (h : Host ν) : List (JSValue ν) → Except JSError String
  | [] => .ok ""
  | x :: rest =>
    match (match x with
      | .undefined => Except.ok ""
      | .null => Except.ok ""
      | v => toStr h v : Except JSError String) with
    | .error e => .error e
    | .ok s =>
      match rest with
      | [] => .ok s
      | _ :: _ =>
        match joinItems h rest with
        | .error e => .error e
        | .ok t => .ok (s ++ "," ++ t)
termination_by structural l => l
end

/-- `ToPrimitive`, as `new Date(v)` applies it: a primitive is itself, an
object or array is converted to its string (its `valueOf` returns the object
itself, so `toString` decides). -/
def toPrimitive {ν : Type} (h : Host ν) (v : JSValue ν) : Except JSError (JSValue ν) :=
  match v with
  | .array _ | .object _ =>
    match toStr h v with
    | .error e => .error e
    | .ok s => .ok (.string s)
  | p => .ok p

/-- `ToBoolean`: the falsy values are `undefined`, `null`, `false`, the empty
string and the falsy numbers. -/
def toBoolean {ν : Type} (h : Host ν) : JSValue ν → Bool
  | .undefined => false
  | .null => false
  | .bool b => b
  | .number x => h.numberToBoolean x
  | .string s => s != ""
  | .array _ => true
  | .object _ => true

/-- The expression `a || b`. -/
def logicalOr {ν : Type} (h : Host ν) (a b : JSValue ν) : JSValue ν :=
  if toBoolean h a then a else b

/-- The value of an own property of an object, `undefined` when the object
has none of that name. -/
def lookupProp {ν : Type} (props : List (String × JSValue ν)) (key : String) : JSValue ν :=
  match props.lookup key with
  | some x => x
  | none => .undefined

/-- The expression `v.key`, for the property names this program reads (`id`,
`user`, `username`, `slogan`, `content`, `likes`, `created_at`), none of which
is defined on a prototype: an own property of an object, `undefined`
otherwise, and a `TypeError` when `v` is `null` or `undefined`. -/
def getProp {ν : Type} (v : JSValue ν) (key : String) : Except JSError (JSValue ν) :=
  match v with
  | .undefined => .error .typeError
  | .null => .error .typeError
  | .object props => .ok (lookupProp props key)
  | _ => .ok .undefined

/-- The expression `v?.key`, for the same property names: `undefined` when
`v` is `null` or `undefined`, the property otherwise. It never throws. -/
def getPropOptional {ν : Type} (v : JSValue ν) (key : String) : JSValue ν :=
  match v with
  | .object props => lookupProp props key
  | _ => .undefined

/-- The expression `new Date(v).toLocaleString()`. -/
def dateLocaleString {ν : Type} (h : Host ν) (v : JSValue ν) : Except JSError String :=
  match toPrimitive h v with
  | .error e => .error e
  | .ok p => .ok (h.dateToLocaleString p)

/-- `Array.prototype.join` on an array of strings. -/
def join (sep : String) : List String → String
  | [] => ""
  | [x] => x
  | x :: y :: rest => x ++ sep ++ join sep (y :: rest)

/-! ## The page -/

/-- The state of the page that the program reads and writes: local storage,
the `innerHTML` of the element `posts`, the `value` of the input `postContent`
(both elements are part of the page), and the trace of what the program did to
the outside: the alerts raised and the requests sent, oldest first. -/
structure Client where
  localStorage : List (String × String)
  postsInnerHTML : String
  postContentValue : String
  alerts : List String
  requests : List Request
  deriving DecidableEq, Repr

/-- `localStorage.getItem(key)`; `none` stands for `null`. -/
def getItem (storage : List (String × String)) (key : String) : Option String :=
  storage.lookup key

/-- The call `fetch(...)`: the request is sent and recorded, the host answers. -/
def doFetch {ν : Type} (h : Host ν) (req : Request) (s : Client) :
    Except JSError (Response ν) × Client :=
  (h.fetch s.requests req, { s with requests := s.requests ++ [req] })

/-- The constant `API_URL`. -/
def API_URL : String := "/api"

/-! ## `loadPosts` -/

/-- The fixed text of the template literal before the first substitution. -/
def tplOpen : String := "\n        <div class=\"post\" data-id=\""
/-- The fixed text between the post id and the author. -/
def tplHeader : String :=
  "\">\n            <div class=\"post-header\">\n                <strong>"
/-- The fixed text between the author and the slogan. -/
def tplSlogan : String := "</strong>\n                <span class=\"slogan\">"
/-- The fixed text between the slogan and the content. -/
def tplContent : String := "</span>\n            </div>\n            <p>"
/-- The fixed text between the content and the argument of `likePost`. -/
def tplLike : String :=
  "</p>\n            <div class=\"post-footer\">\n                <button onclick=\"likePost("
/-- The fixed text between the argument of `likePost` and the likes count. -/
def tplLikes : String := ")\">\n                    👍 "
/-- The fixed text between the likes count and the date. -/
def tplDate : String := "\n                </button>\n                <span>"
/-- The fixed text after the date. -/
def tplClose : String := "</span>\n            </div>\n        </div>\n    "

/-- The placeholder shown for a post without an author name. -/
def placeholder : String := "Товарищ"

/-- The substitutions of the template literal, as strings, in the order in
which the template evaluates them. -/
structure Substitutions where
  id : String
  author : String
  slogan : String
  content : String
  likeId : String
  likes : String
  date : String
  deriving DecidableEq, Repr

/-- The substitutions of the template literal for one post, evaluated and
converted to strings from left to right. -/
def substitutions {ν : Type} (h : Host ν) (post : JSValue ν) : Except JSError Substitutions := do
  let id ← toStr h (← getProp post "id")
  let author ← toStr h
    (logicalOr h (getPropOptional (← getProp post "user") "username") (.string placeholder))
  let slogan ← toStr h (← getProp post "slogan")
  let content ← toStr h (← getProp post "content")
  let likeId ← toStr h (← getProp post "id")
  let likes ← toStr h (← getProp post "likes")
  let date ← dateLocaleString h (← getProp post "created_at")
  pure { id, author, slogan, content, likeId, likes, date }

/-- The template literal: its fixed text around the substitutions. -/
def template (x : Substitutions) : String :=
  tplOpen ++ x.id ++ tplHeader ++ x.author ++ tplSlogan ++ x.slogan ++ tplContent ++ x.content
    ++ tplLike ++ x.likeId ++ tplLikes ++ x.likes ++ tplDate ++ x.date ++ tplClose

/-- The arrow function passed to `posts.map`: the fragment of one post. -/
def renderPost {ν : Type} (h : Host ν) (post : JSValue ν) : Except JSError String :=
  match substitutions h post with
  | .error e => .error e
  | .ok x => .ok (template x)

/-- The expression `posts.map(post => ...).join('')`: a value that is not an
array has no callable `map`. -/
def renderPosts {ν : Type} (h : Host ν) (posts : JSValue ν) : Except JSError String :=
  match posts with
  | .array items =>
    match items.mapM (renderPost h) with
    | .error e => .error e
    | .ok fragments => .ok (join "" fragments)
  | _ => .error .typeError

/-- The request of `fetch(API_URL + "/posts")`. -/
def readRequest : Request :=
  { url := API_URL ++ "/posts", method := .GET, headers := [], body := none }

/-- The function `loadPosts`, run until its promise settles: the outcome (a
rejection is an error) and the page afterwards. -/
def loadPosts {ν : Type} (h : Host ν) (s : Client) : Except JSError Unit × Client :=
  let (fetched, s) := doFetch h readRequest s
  match fetched with
  | .error e => (.error e, s)
  | .ok response =>
    match response.json with
    | .error e => (.error e, s)
    | .ok posts =>
      match renderPosts h posts with
      | .error e => (.error e, s)
      | .ok html => (.ok (), { s with postsInnerHTML := html })

/-! ## `createPost` -/

/-- A hexadecimal digit, in lower case. -/
def hexDigit (d : Nat) : Char :=
  if d < 10 then Char.ofNat (48 + d) else Char.ofNat (87 + d)

/-- How `QuoteJSONString` writes one character: the quotation mark, the
backslash and the control characters are escaped, every other character is
itself (a Lean string holds no lone surrogate). -/
def quoteChar (c : Char) : String :=
  if c.toNat = 8 then "\\b"
  else if c.toNat = 9 then "\\t"
  else if c.toNat = 10 then "\\n"
  else if c.toNat = 12 then "\\f"
  else if c.toNat = 13 then "\\r"
  else if c.toNat = 34 then "\\\""
  else if c.toNat = 92 then "\\\\"
  else if c.toNat < 32 then
    "\\u00" ++ String.mk [hexDigit (c.toNat / 16), hexDigit (c.toNat % 16)]
  else String.mk [c]

/-- `QuoteJSONString`. -/
def quoteJSONString (s : String) : String :=
  "\"" ++ String.join (s.data.map quoteChar) ++ "\""

mutual
/-- `SerializeJSONProperty` without a replacer and without indentation:
`none` stands for `undefined`. -/
def serialize {ν : Type} (h : Host ν) : JSValue ν → Option String
  | .undefined => none
  | .null => some "null"
  | .bool true => some "true"
  | .bool false => some "false"
  | .number x => some (if h.numberIsFinite x then h.numberToString x else "null")
  | .string s => some (quoteJSONString s)
  | .array items => some ("[" ++ join "," (serializeItems h items) ++ "]")
  | .object props => some ("\x7b" ++ join "," (serializeProps h props) ++ "\x7d")
termination_by structural v => v
/-- The elements of an array, serialized: `undefined` is written `null`. -/
def serializeItems {ν : Type} (h : Host ν) : List (JSValue ν) → List String
  | [] => []
  | x :: rest => (serialize h x).getD "null" :: serializeItems h rest
termination_by structural l => l
/-- The members of an object, serialized: a property whose value is
`undefined` is left out. -/
def serializeProps {ν : Type} (h : Host ν) : List (String × JSValue ν) → List String
  | [] => []
  | kv :: rest =>
    match serializeProp h kv with
    | none => serializeProps h rest
    | some member => member :: serializeProps h rest
termination_by structural l => l
/-- One member of an object: the quoted key, a colon and the value. -/
def serializeProp {ν : Type} (h : Host ν) : String × JSValue ν → Option String
  | (key, value) =>
    match serialize h value with
    | none => none
    | some str => some (quoteJSONString key ++ ":" ++ str)
termination_by structural kv => kv
end

/-- The function `JSON.stringify` with one argument. -/
def JSON.stringify {ν : Type} (h : Host ν) (value : JSValue ν) : Option String :=
  serialize h value

/-- The expression `!token` for what `localStorage.getItem` returned: true
for `null` and for the empty string. -/
def notToken (token : Option String) : Bool :=
  match token with
  | none => true
  | some t => t == ""

/-- The substitution of `token` in a template literal. -/
def tokenToString (token : Option String) : String :=
  match token with
  | none => "null"
  | some t => t

/-- The text of the notification raised when no credential is stored. -/
def loginNotice : String := "Товарищ, авторизуйтесь!"

/-- The request of the `fetch` in `createPost`, for the token read from local
storage and the text read from the input. -/
def writeRequest {ν : Type} (h : Host ν) (token : Option String) (content : String) : Request :=
  { url := API_URL ++ "/posts"
    method := .POST
    headers := [("Content-Type", "application/json"),
      ("Authorization", "Bearer " ++ tokenToString token)]
    body := JSON.stringify h (.object [("content", .string content)]) }

/-- The function `createPost`, run until its promise and the promise of the
`loadPosts` it starts have settled. The call of `loadPosts` is not awaited, so
its rejection does not reach the outcome of `createPost`. -/
def createPost {ν : Type} (h : Host ν) (s : Client) : Except JSError Unit × Client :=
  let content := s.postContentValue
  let token := getItem s.localStorage "token"
  if notToken token then
    (.ok (), { s with alerts := s.alerts ++ [loginNotice] })
  else
    let (fetched, s) := doFetch h (writeRequest h token content) s
    match fetched with
    | .error e => (.error e, s)
    | .ok response =>
      if response.ok then
        (.ok (), (loadPosts h { s with postContentValue := "" }).2)
      else
        (.ok (), s)

/-! ## Example data -/

/-- An example host over integer numbers: a write request is answered with
the given status, a read request with the given list of posts. -/
def demoHost (writeOk : Bool) (posts : JSValue Int) : Host Int where
  numberToString := fun n => toString n
  numberToBoolean := fun n => n != 0
  numberIsFinite := fun _ => true
  dateToLocaleString := fun v =>
    match v with
    | .string s => s
    | _ => "Invalid Date"
  fetch := fun _ req =>
    match req.method with
    | .GET => .ok { ok := true, json := .ok posts }
    | .POST => .ok { ok := writeOk, json := .error .syntaxError }

/-- An example post with an author. -/
def demoPost : JSValue Int :=
  .object [("id", .number 7), ("content", .string "hello"), ("slogan", .string "unity"),
    ("likes", .number 3), ("created_at", .string "2024-01-01"),
    ("user", .object [("username", .string "ivan")])]

/-- An example post whose user has the empty string as username. -/
def namelessPost : JSValue Int :=
  .object [("id", .number 8), ("content", .string "hello"), ("slogan", .string "unity"),
    ("likes", .number 0), ("created_at", .string "2024-01-02"),
    ("user", .object [("username", .string "")])]

/-- An example post whose content is markup. -/
def scriptPost : JSValue Int :=
  .object [("id", .number 9), ("content", .string "<script>x</script>"),
    ("slogan", .string "unity"), ("likes", .number 0), ("created_at", .string "2024-01-03")]

/-- An empty page. -/
def emptyClient : Client :=
  { localStorage := [], postsInnerHTML := "", postContentValue := "", alerts := [],
    requests := [] }

/-- A page with the input text `hi` and the empty string stored as token. -/
def emptyTokenClient : Client :=
  { emptyClient with localStorage := [("token", "")], postContentValue := "hi" }

/-- A page with the input text `hi`, the token `abc`, and some posts shown. -/
def loggedInClient : Client :=
  { emptyClient with
    localStorage := [("token", "abc")], postContentValue := "hi", postsInnerHTML := "<p>old</p>" }

/-- A page with the input text `hi` and nothing stored. -/
def loggedOutClient : Client :=
  { emptyClient with postContentValue := "hi" }

/-! ## Vocabulary of the statements -/

/-- A primitive value: anything but an array or an object. -/
def isPrimitive {ν : Type} : JSValue ν → Bool
  | .array _ => false
  | .object _ => false
  | _ => true

/-- A post record: an object whose `id`, `slogan`, `content`, `likes` and
`created_at` and whose `user?.username` are primitive values (text, numbers,
or absent). -/
def isPost {ν : Type} : JSValue ν → Bool
  | .object props =>
    isPrimitive (lookupProp props "id") && isPrimitive (lookupProp props "slogan")
      && isPrimitive (lookupProp props "content") && isPrimitive (lookupProp props "likes")
      && isPrimitive (lookupProp props "created_at")
      && isPrimitive (getPropOptional (lookupProp props "user") "username")
  | _ => false

/-- The string of a value whose conversion does not throw. -/
def strOf {ν : Type} (h : Host ν) (v : JSValue ν) : String :=
  match toStr h v with
  | .ok s => s
  | .error _ => ""

/-- The text `needle` occurs in `text` as a contiguous piece. -/
def Contains (text needle : String) : Prop :=
  ∃ before after : String, text = before ++ needle ++ after

/-- The read requests of a trace. -/
def reads (log : List Request) : List Request :=
  log.filter (fun r => r.method == .GET)

/-- The write requests of a trace. -/
def writes (log : List Request) : List Request :=
  log.filter (fun r => r.method == .POST)

/-! ## Lemmas -/

/-- Converting a primitive value to a string does not throw. -/
theorem toStr_of_isPrimitive {ν : Type} (h : Host ν) (v : JSValue ν)
    (hv : isPrimitive v = true) : toStr h v = .ok (strOf h v) := by
  cases v with
  | bool b => cases b <;> simp [strOf, toStr]
  | array _ => simp [isPrimitive] at hv
  | object _ => simp [isPrimitive] at hv
  | _ => simp [strOf, toStr]

/-- The date of a primitive value is what the host renders for it. -/
theorem dateLocaleString_of_isPrimitive {ν : Type} (h : Host ν) (v : JSValue ν)
    (hv : isPrimitive v = true) : dateLocaleString h v = .ok (h.dateToLocaleString v) := by
  cases v <;> simp_all [isPrimitive, dateLocaleString, toPrimitive]

/-- The author name is a primitive value when the username is. -/
theorem isPrimitive_or {ν : Type} (h : Host ν) (a : JSValue ν) (s : String)
    (ha : isPrimitive a = true) : isPrimitive (logicalOr h a (.string s)) = true := by
  unfold logicalOr
  split
  · exact ha
  · rfl

/-- The substitutions of a post record: no conversion throws. -/
theorem substitutions_of_isPost {ν : Type} (h : Host ν) (props : List (String × JSValue ν))
    (hp : isPost (.object props) = true) :
    substitutions h (.object props) = .ok
      { id := strOf h (lookupProp props "id")
        author := strOf h
          (logicalOr h (getPropOptional (lookupProp props "user") "username") (.string placeholder))
        slogan := strOf h (lookupProp props "slogan")
        content := strOf h (lookupProp props "content")
        likeId := strOf h (lookupProp props "id")
        likes := strOf h (lookupProp props "likes")
        date := h.dateToLocaleString (lookupProp props "created_at") } := by
  simp only [isPost, Bool.and_eq_true] at hp
  obtain ⟨⟨⟨⟨⟨hid, hslogan⟩, hcontent⟩, hlikes⟩, hdate⟩, huser⟩ := hp
  simp only [substitutions, getProp, bind, Except.bind, pure, Except.pure,
    toStr_of_isPrimitive h _ hid, toStr_of_isPrimitive h _ hslogan,
    toStr_of_isPrimitive h _ hcontent, toStr_of_isPrimitive h _ hlikes,
    dateLocaleString_of_isPrimitive h _ hdate,
    toStr_of_isPrimitive h _ (isPrimitive_or h _ placeholder huser)]

/-- The fragment of a post record is its template, filled in. -/
theorem renderPost_of_isPost {ν : Type} (h : Host ν) (post : JSValue ν)
    (hp : isPost post = true) : ∃ x, substitutions h post = .ok x ∧
      renderPost h post = .ok (template x) := by
  cases post with
  | object props =>
    refine ⟨_, substitutions_of_isPost h props hp, ?_⟩
    simp [renderPost, substitutions_of_isPost h props hp]
  | _ => simp [isPost] at hp

/-- Concatenating a list takes its head first. -/
theorem string_join_cons (x : String) (xs : List String) :
    String.join (x :: xs) = x ++ String.join xs := by
  have key : ∀ (l : List String) (acc : String),
      List.foldl (fun r t => r ++ t) acc l = acc ++ List.foldl (fun r t => r ++ t) "" l := by
    intro l
    induction l with
    | nil => intro acc; simp
    | cons y ys ih =>
      intro acc
      simp only [List.foldl_cons]
      rw [ih (acc ++ y), ih ("" ++ y)]
      simp [String.append_assoc]
  simp only [String.join, List.foldl_cons]
  rw [key xs ("" ++ x)]
  simp

/-- Joining with the empty separator is concatenation. -/
theorem join_empty (l : List String) : join "" l = String.join l := by
  induction l with
  | nil => rfl
  | cons x xs ih =>
    cases xs with
    | nil => simp [join, String.join]
    | cons y ys =>
      rw [string_join_cons, ← ih]
      simp [join]

/-- Mapping over post records collects one fragment per post, in order. -/
theorem mapM_renderPost {ν : Type} (h : Host ν) (posts : List (JSValue ν))
    (hposts : ∀ p ∈ posts, isPost p = true) :
    ∃ fragments : List String, posts.mapM (renderPost h) = .ok fragments ∧
      List.Forall₂ (fun post fragment => renderPost h post = .ok fragment) posts fragments := by
  induction posts with
  | nil => exact ⟨[], rfl, List.Forall₂.nil⟩
  | cons p ps ih =>
    obtain ⟨fs, hfs, hall⟩ := ih (fun q hq => hposts q (List.mem_cons_of_mem p hq))
    obtain ⟨x, _, hx⟩ := renderPost_of_isPost h p (hposts p (List.mem_cons_self p ps))
    refine ⟨template x :: fs, ?_, List.Forall₂.cons hx hall⟩
    rw [List.mapM_cons, hx, hfs]
    rfl

/-- What `loadPosts` does when the response is an array that renders. -/
theorem loadPosts_of_render {ν : Type} (h : Host ν) (s : Client) (response : Response ν)
    (posts : JSValue ν) (html : String)
    (hfetch : h.fetch s.requests readRequest = .ok response)
    (hjson : response.json = .ok posts)
    (hrender : renderPosts h posts = .ok html) :
    loadPosts h s = (.ok (),
      { s with requests := s.requests ++ [readRequest], postsInnerHTML := html }) := by
  simp [loadPosts, doFetch, hfetch, hjson, hrender]

/-- Whatever happens, `loadPosts` sends its read request and leaves local
storage, the input, and the alerts as they were. -/
theorem loadPosts_frame {ν : Type} (h : Host ν) (s : Client) :
    (loadPosts h s).2.localStorage = s.localStorage ∧
    (loadPosts h s).2.postContentValue = s.postContentValue ∧
    (loadPosts h s).2.alerts = s.alerts ∧
    (loadPosts h s).2.requests = s.requests ++ [readRequest] := by
  simp only [loadPosts, doFetch]
  split
  · simp
  · split
    · simp
    · split <;> simp

/-- A contiguous piece of a string is an infix of its list of characters. -/
theorem contains_iff_isInfix (text needle : String) :
    Contains text needle ↔ needle.data <:+: text.data := by
  constructor
  · rintro ⟨before, after, rfl⟩
    exact ⟨before.data, after.data, by simp⟩
  · rintro ⟨l, r, hlr⟩
    refine ⟨⟨l⟩, ⟨r⟩, ?_⟩
    apply String.ext
    simp [hlr]

/-- The empty string occurs in every string. -/
theorem contains_empty (text : String) : Contains text "" :=
  ⟨"", text, by simp⟩

/-- The author, the slogan and the content occur in the filled template. -/
theorem template_contains (x : Substitutions) :
    Contains (template x) x.author ∧ Contains (template x) x.slogan ∧
      Contains (template x) x.content := by
  refine ⟨⟨tplOpen ++ x.id ++ tplHeader, tplSlogan ++ x.slogan ++ tplContent ++ x.content
      ++ tplLike ++ x.likeId ++ tplLikes ++ x.likes ++ tplDate ++ x.date ++ tplClose, ?_⟩,
    ⟨tplOpen ++ x.id ++ tplHeader ++ x.author ++ tplSlogan, tplContent ++ x.content
      ++ tplLike ++ x.likeId ++ tplLikes ++ x.likes ++ tplDate ++ x.date ++ tplClose, ?_⟩,
    ⟨tplOpen ++ x.id ++ tplHeader ++ x.author ++ tplSlogan ++ x.slogan ++ tplContent,
      tplLike ++ x.likeId ++ tplLikes ++ x.likes ++ tplDate ++ x.date ++ tplClose, ?_⟩⟩ <;>
    simp only [template, String.append_assoc]

/-! ## The claims -/

/-- C1: when the backend answers the read request with a list of post records,
the content that `loadPosts` assigns to the container `posts` is the
concatenation, without a separator, of one fragment per post in the order of
the response: as many fragments as posts, each the rendering of the post at
the same place, and empty content for an empty list. -/
theorem loadPosts_concatenates_fragments {ν : Type} (h : Host ν) (s : Client)
    (response : Response ν) (posts : List (JSValue ν))
    (hfetch : h.fetch s.requests readRequest = .ok response)
    (hjson : response.json = .ok (.array posts))
    (hposts : ∀ p ∈ posts, isPost p = true) :
    ∃ fragments : List String,
      fragments.length = posts.length ∧
      List.Forall₂ (fun post fragment => renderPost h post = .ok fragment) posts fragments ∧
      (loadPosts h s).2.postsInnerHTML = String.join fragments ∧
      (posts = [] → (loadPosts h s).2.postsInnerHTML = "") := by
  obtain ⟨fragments, hmap, hall⟩ := mapM_renderPost h posts hposts
  have hrender : renderPosts h (.array posts) = .ok (join "" fragments) := by
    simp only [renderPosts, hmap]
  have hload := loadPosts_of_render h s response _ _ hfetch hjson hrender
  refine ⟨fragments, hall.length_eq.symm, hall, ?_, ?_⟩
  · rw [hload, ← join_empty]
  · intro hnil
    subst hnil
    cases hall
    rw [hload]
    rfl

set_option maxRecDepth 100000 in
theorem loadPosts_concatenates_fragments_witness :
    (demoHost true (.array [demoPost, demoPost])).fetch emptyClient.requests readRequest
      = .ok { ok := true, json := .ok (.array [demoPost, demoPost]) } ∧
    (∀ p ∈ [demoPost, demoPost], isPost p = true) ∧
    ∃ fragments : List String,
      fragments.length = [demoPost, demoPost].length ∧
      List.Forall₂
        (fun post fragment =>
          renderPost (demoHost true (.array [demoPost, demoPost])) post = .ok fragment)
        [demoPost, demoPost] fragments ∧
      (loadPosts (demoHost true (.array [demoPost, demoPost])) emptyClient).2.postsInnerHTML
        = String.join fragments ∧
      ([demoPost, demoPost] = [] →
        (loadPosts (demoHost true (.array [demoPost, demoPost])) emptyClient).2.postsInnerHTML
          = "") :=
  ⟨rfl, by decide,
    loadPosts_concatenates_fragments (demoHost true (.array [demoPost, demoPost])) emptyClient
      { ok := true, json := .ok (.array [demoPost, demoPost]) } [demoPost, demoPost] rfl rfl
      (by decide)⟩

set_option maxRecDepth 100000 in
/-- C2, as stated, fails: a post whose user has the empty string as username
is rendered with the placeholder, not with the username, in the author
position. -/
theorem empty_username_renders_placeholder :
    isPost namelessPost = true ∧
    getProp namelessPost "user" = .ok (.object [("username", .string "")]) ∧
    (∃ x, substitutions (demoHost true .null) namelessPost = .ok x ∧
      x.author = "Товарищ" ∧ x.author ≠ "") ∧
    renderPost (demoHost true .null) namelessPost = .ok
      ("\n        <div class=\"post\" data-id=\"8\">\n            <div class=\"post-header\">\n"
        ++ "                <strong>Товарищ</strong>\n"
        ++ "                <span class=\"slogan\">unity</span>\n            </div>\n"
        ++ "            <p>hello</p>\n            <div class=\"post-footer\">\n"
        ++ "                <button onclick=\"likePost(8)\">\n                    👍 0\n"
        ++ "                </button>\n                <span>2024-01-02</span>\n"
        ++ "            </div>\n        </div>\n    ") := by
  refine ⟨by decide, rfl, ⟨_, rfl, ?_, ?_⟩, ?_⟩ <;> decide

/-- C2, amended: the fragment of a post record shows the placeholder in the
author position when the post has no user, and also when its user has the
empty string as username; it shows the username when the post has a user whose
username is a non-empty string. -/
theorem author_placeholder_or_username {ν : Type} (h : Host ν) (post : JSValue ν)
    (hp : isPost post = true) :
    ∃ x, substitutions h post = .ok x ∧
      renderPost h post = .ok (template x) ∧
      (getProp post "user" = .ok .undefined ∨ getProp post "user" = .ok .null →
        x.author = placeholder) ∧
      (∀ user name, getProp post "user" = .ok user →
        getProp user "username" = .ok (.string name) →
        (name ≠ "" → x.author = name) ∧ (name = "" → x.author = placeholder)) := by
  cases post with
  | object props =>
    refine ⟨_, substitutions_of_isPost h props hp, ?_, ?_, ?_⟩
    · simp [renderPost, substitutions_of_isPost h props hp]
    · simp only [getProp, Except.ok.injEq]
      rintro (hu | hu) <;>
        simp [hu, getPropOptional, logicalOr, toBoolean, strOf, toStr]
    · intro user name hu hn
      simp only [getProp, Except.ok.injEq] at hu
      subst hu
      cases huser : lookupProp props "user" with
      | object u =>
        rw [huser] at hn
        simp only [getProp, Except.ok.injEq] at hn
        constructor
        · intro hne
          simp [huser, hn, getPropOptional, logicalOr, toBoolean, strOf, toStr, hne]
        · intro he
          simp [huser, hn, getPropOptional, logicalOr, toBoolean, strOf, toStr, he]
      | _ => rw [huser] at hn; simp [getProp] at hn
  | _ => simp [isPost] at hp

set_option maxRecDepth 100000 in
theorem author_placeholder_or_username_witness :
    isPost demoPost = true ∧
    ∃ x, substitutions (demoHost true .null) demoPost = .ok x ∧
      renderPost (demoHost true .null) demoPost = .ok (template x) ∧
      (getProp demoPost "user" = .ok .undefined ∨ getProp demoPost "user" = .ok .null →
        x.author = placeholder) ∧
      (∀ user name, getProp demoPost "user" = .ok user →
        getProp user "username" = .ok (.string name) →
        (name ≠ "" → x.author = name) ∧ (name = "" → x.author = placeholder)) :=
  ⟨by decide, author_placeholder_or_username (demoHost true .null) demoPost (by decide)⟩

/-- C3: in every state of the page in which nothing is stored under the key
`token`, whatever the input holds, `createPost` raises the notification and
stops: no request at all is sent (no write, and no read by `loadPosts`), and
the input and the displayed posts are left as they were. -/
theorem createPost_without_token {ν : Type} (h : Host ν) (s : Client)
    (htoken : getItem s.localStorage "token" = none) :
    (createPost h s).1 = .ok () ∧
    (createPost h s).2.alerts = s.alerts ++ [loginNotice] ∧
    (createPost h s).2.requests = s.requests ∧
    (createPost h s).2.postContentValue = s.postContentValue ∧
    (createPost h s).2.postsInnerHTML = s.postsInnerHTML := by
  simp [createPost, htoken, notToken]

theorem createPost_without_token_witness :
    getItem loggedOutClient.localStorage "token" = none ∧
    (createPost (demoHost true .null) loggedOutClient).1
      = .ok () ∧
    (createPost (demoHost true .null) loggedOutClient).2.alerts
      = loggedOutClient.alerts ++ [loginNotice] ∧
    (createPost (demoHost true .null) loggedOutClient).2.requests
      = loggedOutClient.requests ∧
    (createPost (demoHost true .null)
        loggedOutClient).2.postContentValue
      = loggedOutClient.postContentValue ∧
    (createPost (demoHost true .null)
        loggedOutClient).2.postsInnerHTML
      = loggedOutClient.postsInnerHTML :=
  ⟨by decide,
    createPost_without_token (demoHost true .null) loggedOutClient
      (by decide)⟩

/-- What `createPost` does when a non-empty token is stored: the write
request is sent, and the answer decides the rest. -/
theorem createPost_of_token {ν : Type} (h : Host ν) (s : Client) (t : String)
    (htoken : getItem s.localStorage "token" = some t) (ht : t ≠ "") :
    createPost h s =
      match h.fetch s.requests (writeRequest h (some t) s.postContentValue) with
      | .error e =>
        (.error e,
          { s with requests := s.requests ++ [writeRequest h (some t) s.postContentValue] })
      | .ok response =>
        if response.ok then
          (.ok (), (loadPosts h
            { s with
              requests := s.requests ++ [writeRequest h (some t) s.postContentValue]
              postContentValue := "" }).2)
        else
          (.ok (),
            { s with requests := s.requests ++ [writeRequest h (some t) s.postContentValue] })
    := by
  simp only [createPost, htoken, notToken, doFetch, beq_iff_eq, ht, Bool.false_eq_true,
    if_false]

/-- What `createPost` does when no token or the empty token is stored. -/
theorem createPost_of_no_token {ν : Type} (h : Host ν) (s : Client)
    (htoken : getItem s.localStorage "token" = none ∨ getItem s.localStorage "token" = some "") :
    createPost h s = (.ok (), { s with alerts := s.alerts ++ [loginNotice] }) := by
  rcases htoken with htoken | htoken <;> simp [createPost, htoken, notToken]

/-- The body that `createPost` sends: an object with the one member `content`. -/
theorem writeRequest_body {ν : Type} (h : Host ν) (token : Option String) (content : String) :
    (writeRequest h token content).body
      = some ("\x7b\"content\":" ++ quoteJSONString content ++ "\x7d") := by
  have hkey : quoteJSONString "content" = "\"content\"" := by decide
  have hopen : "\x7b" ++ "\"content\"" ++ ":" = "\x7b\"content\":" := by decide
  simp only [writeRequest, JSON.stringify, serialize, serializeProps, serializeProp, join, hkey]
  rw [← String.append_assoc, ← String.append_assoc, hopen]

/-- C4, as stated, fails: with the empty string stored under `token` and the
input text `hi`, `createPost` raises the notification and sends no request at
all, so no write request. -/
theorem createPost_empty_token_sends_nothing :
    getItem emptyTokenClient.localStorage "token" = some "" ∧
    emptyTokenClient.postContentValue = "hi" ∧
    (createPost (demoHost true (.array [])) emptyTokenClient).2.requests = [] ∧
    (createPost (demoHost true (.array [])) emptyTokenClient).2.alerts
      = ["Товарищ, авторизуйтесь!"] ∧
    (createPost (demoHost true (.array [])) emptyTokenClient).2.postContentValue = "hi" := by
  decide

/-- C4, amended: for every non-empty stored credential `t` and every input
text, `createPost` sends exactly one write request, a `POST` to
`API_URL + "/posts"` whose `Authorization` header is `Bearer ` followed by `t`
and whose body is the JSON text of an object with the one member `content`;
and when the answer to it is successful, the input is set to the empty string
and exactly one read request follows. -/
theorem createPost_sends_one_write {ν : Type} (h : Host ν) (s : Client) (t : String)
    (htoken : getItem s.localStorage "token" = some t) (ht : t ≠ "") :
    (writeRequest h (some t) s.postContentValue).url = API_URL ++ "/posts" ∧
    (writeRequest h (some t) s.postContentValue).method = .POST ∧
    (writeRequest h (some t) s.postContentValue).headers
      = [("Content-Type", "application/json"), ("Authorization", "Bearer " ++ t)] ∧
    (writeRequest h (some t) s.postContentValue).body
      = some ("\x7b\"content\":" ++ quoteJSONString s.postContentValue ++ "\x7d") ∧
    ((createPost h s).2.requests
        = s.requests ++ [writeRequest h (some t) s.postContentValue] ∨
      (createPost h s).2.requests
        = s.requests ++ [writeRequest h (some t) s.postContentValue, readRequest]) ∧
    writes (createPost h s).2.requests
      = writes s.requests ++ [writeRequest h (some t) s.postContentValue] ∧
    (∀ response, h.fetch s.requests (writeRequest h (some t) s.postContentValue) = .ok response →
      response.ok = true →
      (createPost h s).2.postContentValue = "" ∧
      (createPost h s).2.requests
        = s.requests ++ [writeRequest h (some t) s.postContentValue, readRequest]) := by
  have hshape : (createPost h s).2.requests
        = s.requests ++ [writeRequest h (some t) s.postContentValue] ∨
      (createPost h s).2.requests
        = s.requests ++ [writeRequest h (some t) s.postContentValue, readRequest] := by
    rw [createPost_of_token h s t htoken ht]
    split
    · exact Or.inl rfl
    · split
      · right
        simp [(loadPosts_frame h _).2.2.2]
      · exact Or.inl rfl
  refine ⟨rfl, rfl, rfl, writeRequest_body h _ _, hshape, ?_, ?_⟩
  · rcases hshape with hreq | hreq <;>
      simp [hreq, writes, List.filter_append, List.filter_cons, writeRequest, readRequest]
  · intro response hfetch hok
    rw [createPost_of_token h s t htoken ht, hfetch]
    simp [hok, (loadPosts_frame h _).2.1, (loadPosts_frame h _).2.2.2]

theorem createPost_sends_one_write_witness :
    getItem loggedInClient.localStorage "token" = some "abc" ∧ "abc" ≠ "" ∧
    (writeRequest (demoHost true (.array [])) (some "abc")
      loggedInClient.postContentValue).url = API_URL ++ "/posts" ∧
    (writeRequest (demoHost true (.array [])) (some "abc")
      loggedInClient.postContentValue).method = .POST ∧
    (writeRequest (demoHost true (.array [])) (some "abc")
      loggedInClient.postContentValue).headers
      = [("Content-Type", "application/json"), ("Authorization", "Bearer " ++ "abc")] ∧
    (writeRequest (demoHost true (.array [])) (some "abc")
      loggedInClient.postContentValue).body
      = some ("\x7b\"content\":" ++ quoteJSONString loggedInClient.postContentValue ++ "\x7d") ∧
    ((createPost (demoHost true (.array [])) loggedInClient).2.requests
        = loggedInClient.requests ++
          [writeRequest (demoHost true (.array [])) (some "abc")
            loggedInClient.postContentValue] ∨
      (createPost (demoHost true (.array [])) loggedInClient).2.requests
        = loggedInClient.requests ++
          [writeRequest (demoHost true (.array [])) (some "abc")
            loggedInClient.postContentValue, readRequest]) ∧
    writes (createPost (demoHost true (.array [])) loggedInClient).2.requests
      = writes loggedInClient.requests ++
        [writeRequest (demoHost true (.array [])) (some "abc")
          loggedInClient.postContentValue] ∧
    (∀ response,
      (demoHost true (.array [])).fetch loggedInClient.requests
        (writeRequest (demoHost true (.array [])) (some "abc")
          loggedInClient.postContentValue) = .ok response →
      response.ok = true →
      (createPost (demoHost true (.array [])) loggedInClient).2.postContentValue = "" ∧
      (createPost (demoHost true (.array [])) loggedInClient).2.requests
        = loggedInClient.requests ++
          [writeRequest (demoHost true (.array [])) (some "abc")
            loggedInClient.postContentValue, readRequest]) :=
  ⟨by decide, by decide,
    createPost_sends_one_write (demoHost true (.array [])) loggedInClient "abc"
      (by decide) (by decide)⟩

/-- C5: for every stored credential and every input text, when the write
request of `createPost` is answered with a status that is not a success, the
input keeps the value it had before the call, and no read request is sent:
`loadPosts` is not invoked, so the displayed posts stay as well. -/
theorem createPost_failed_write {ν : Type} (h : Host ν) (s : Client) (t : String)
    (response : Response ν)
    (htoken : getItem s.localStorage "token" = some t)
    (hfetch : h.fetch s.requests (writeRequest h (some t) s.postContentValue) = .ok response)
    (hfail : response.ok = false) :
    (createPost h s).2.postContentValue = s.postContentValue ∧
    reads (createPost h s).2.requests = reads s.requests ∧
    readRequest ∉ (createPost h s).2.requests.drop s.requests.length ∧
    (createPost h s).2.postsInnerHTML = s.postsInnerHTML := by
  by_cases ht : t = ""
  · subst ht
    rw [createPost_of_no_token h s (Or.inr htoken)]
    simp
  · rw [createPost_of_token h s t htoken ht, hfetch]
    simp [hfail, reads, List.filter_append, writeRequest, readRequest]

theorem createPost_failed_write_witness :
    getItem loggedInClient.localStorage "token" = some "abc" ∧
    (demoHost false (.array [])).fetch loggedInClient.requests
      (writeRequest (demoHost false (.array [])) (some "abc") loggedInClient.postContentValue)
      = .ok { ok := false, json := .error .syntaxError } ∧
    (createPost (demoHost false (.array [])) loggedInClient).2.postContentValue
      = loggedInClient.postContentValue ∧
    reads (createPost (demoHost false (.array [])) loggedInClient).2.requests
      = reads loggedInClient.requests ∧
    readRequest ∉
      (createPost (demoHost false (.array [])) loggedInClient).2.requests.drop
        loggedInClient.requests.length ∧
    (createPost (demoHost false (.array [])) loggedInClient).2.postsInnerHTML
      = loggedInClient.postsInnerHTML :=
  ⟨by decide, rfl,
    createPost_failed_write (demoHost false (.array [])) loggedInClient "abc"
      { ok := false, json := .error .syntaxError } (by decide) rfl rfl⟩

/-- C6: the fragment of a post record is the fixed text of the template with,
in this order, the post id (the tag `data-id`), the display name of the
author, the slogan, the content, the post id again as the argument of
`likePost` in the `onclick` of the like button, the likes count as the label
of that button, and the locale rendering of `created_at`. -/
theorem fragment_layout {ν : Type} (h : Host ν) (post : JSValue ν)
    (hp : isPost post = true) :
    ∃ (id user slogan content likes created : JSValue ν)
      (idText author sloganText contentText likesText : String),
      getProp post "id" = .ok id ∧ toStr h id = .ok idText ∧
      getProp post "user" = .ok user ∧
      toStr h (logicalOr h (getPropOptional user "username") (.string placeholder)) = .ok author ∧
      getProp post "slogan" = .ok slogan ∧ toStr h slogan = .ok sloganText ∧
      getProp post "content" = .ok content ∧ toStr h content = .ok contentText ∧
      getProp post "likes" = .ok likes ∧ toStr h likes = .ok likesText ∧
      getProp post "created_at" = .ok created ∧
      renderPost h post = .ok
        ("\n        <div class=\"post\" data-id=\"" ++ idText
          ++ "\">\n            <div class=\"post-header\">\n                <strong>" ++ author
          ++ "</strong>\n                <span class=\"slogan\">" ++ sloganText
          ++ "</span>\n            </div>\n            <p>" ++ contentText
          ++ "</p>\n            <div class=\"post-footer\">\n                <button onclick=\"likePost("
          ++ idText
          ++ ")\">\n                    👍 " ++ likesText
          ++ "\n                </button>\n                <span>" ++ h.dateToLocaleString created
          ++ "</span>\n            </div>\n        </div>\n    ") := by
  cases post with
  | object props =>
    have hsub := substitutions_of_isPost h props hp
    simp only [isPost, Bool.and_eq_true] at hp
    obtain ⟨⟨⟨⟨⟨hid, hslogan⟩, hcontent⟩, hlikes⟩, _⟩, huser⟩ := hp
    refine ⟨_, _, _, _, _, _, _, _, _, _, _, rfl, toStr_of_isPrimitive h _ hid, rfl,
      toStr_of_isPrimitive h _ (isPrimitive_or h _ placeholder huser), rfl,
      toStr_of_isPrimitive h _ hslogan, rfl, toStr_of_isPrimitive h _ hcontent, rfl,
      toStr_of_isPrimitive h _ hlikes, rfl, ?_⟩
    simp only [renderPost, hsub]
    rfl
  | _ => simp [isPost] at hp

set_option maxRecDepth 100000 in
theorem fragment_layout_witness :
    isPost demoPost = true ∧
    renderPost (demoHost true (.array [])) demoPost = .ok
      ("\n        <div class=\"post\" data-id=\"7\">\n            <div class=\"post-header\">\n"
        ++ "                <strong>ivan</strong>\n"
        ++ "                <span class=\"slogan\">unity</span>\n            </div>\n"
        ++ "            <p>hello</p>\n            <div class=\"post-footer\">\n"
        ++ "                <button onclick=\"likePost(7)\">\n                    👍 3\n"
        ++ "                </button>\n                <span>2024-01-01</span>\n"
        ++ "            </div>\n        </div>\n    ") ∧
    ∃ (id user slogan content likes created : JSValue Int)
      (idText author sloganText contentText likesText : String),
      getProp demoPost "id" = .ok id ∧ toStr (demoHost true (.array [])) id = .ok idText ∧
      getProp demoPost "user" = .ok user ∧
      toStr (demoHost true (.array []))
        (logicalOr (demoHost true (.array [])) (getPropOptional user "username")
          (.string placeholder)) = .ok author ∧
      getProp demoPost "slogan" = .ok slogan ∧
      toStr (demoHost true (.array [])) slogan = .ok sloganText ∧
      getProp demoPost "content" = .ok content ∧
      toStr (demoHost true (.array [])) content = .ok contentText ∧
      getProp demoPost "likes" = .ok likes ∧
      toStr (demoHost true (.array [])) likes = .ok likesText ∧
      getProp demoPost "created_at" = .ok created ∧
      renderPost (demoHost true (.array [])) demoPost = .ok
        ("\n        <div class=\"post\" data-id=\"" ++ idText
          ++ "\">\n            <div class=\"post-header\">\n                <strong>" ++ author
          ++ "</strong>\n                <span class=\"slogan\">" ++ sloganText
          ++ "</span>\n            </div>\n            <p>" ++ contentText
          ++ "</p>\n            <div class=\"post-footer\">\n                <button onclick=\"likePost("
          ++ idText
          ++ ")\">\n                    👍 " ++ likesText
          ++ "\n                </button>\n                <span>"
          ++ (demoHost true (.array [])).dateToLocaleString created
          ++ "</span>\n            </div>\n        </div>\n    ") :=
  ⟨by decide, by decide, fragment_layout (demoHost true (.array [])) demoPost (by decide)⟩

/-- C7: `loadPosts` replaces the content of the container: for a response
that is a list of post records, the content after `loadPosts` is the rendering
of the response, whatever the container held before, so it is the same for any
two prior contents. -/
theorem loadPosts_replaces_content {ν : Type} (h : Host ν) (s : Client)
    (response : Response ν) (posts : List (JSValue ν))
    (hfetch : h.fetch s.requests readRequest = .ok response)
    (hjson : response.json = .ok (.array posts))
    (hposts : ∀ p ∈ posts, isPost p = true) :
    ∃ html, renderPosts h (.array posts) = .ok html ∧
      (∀ prior, (loadPosts h { s with postsInnerHTML := prior }).2.postsInnerHTML = html) ∧
      (∀ prior₁ prior₂,
        (loadPosts h { s with postsInnerHTML := prior₁ }).2.postsInnerHTML
          = (loadPosts h { s with postsInnerHTML := prior₂ }).2.postsInnerHTML) := by
  obtain ⟨fragments, hmap, _⟩ := mapM_renderPost h posts hposts
  have hrender : renderPosts h (.array posts) = .ok (join "" fragments) := by
    simp only [renderPosts, hmap]
  have hload : ∀ prior,
      (loadPosts h { s with postsInnerHTML := prior }).2.postsInnerHTML
        = join "" fragments := by
    intro prior
    rw [loadPosts_of_render h { s with postsInnerHTML := prior } response _ _ hfetch hjson
      hrender]
  refine ⟨_, hrender, hload, ?_⟩
  intro prior₁ prior₂
  rw [hload prior₁, hload prior₂]

set_option maxRecDepth 100000 in
theorem loadPosts_replaces_content_witness :
    (demoHost true (.array [demoPost])).fetch loggedInClient.requests readRequest
      = .ok { ok := true, json := .ok (.array [demoPost]) } ∧
    (∀ p ∈ [demoPost], isPost p = true) ∧
    ∃ html, renderPosts (demoHost true (.array [demoPost])) (.array [demoPost]) = .ok html ∧
      (∀ prior,
        (loadPosts (demoHost true (.array [demoPost]))
          { loggedInClient with postsInnerHTML := prior }).2.postsInnerHTML = html) ∧
      (∀ prior₁ prior₂,
        (loadPosts (demoHost true (.array [demoPost]))
          { loggedInClient with postsInnerHTML := prior₁ }).2.postsInnerHTML
          = (loadPosts (demoHost true (.array [demoPost]))
            { loggedInClient with postsInnerHTML := prior₂ }).2.postsInnerHTML) :=
  ⟨rfl, by decide,
    loadPosts_replaces_content (demoHost true (.array [demoPost])) loggedInClient
      { ok := true, json := .ok (.array [demoPost]) } [demoPost] rfl rfl (by decide)⟩

/-- C8: local storage, and with it the value stored under `token`, is the same
after `createPost` and after `loadPosts` as before, whatever path they take. -/
theorem token_unchanged {ν : Type} (h : Host ν) (s : Client) :
    (createPost h s).2.localStorage = s.localStorage ∧
    getItem (createPost h s).2.localStorage "token" = getItem s.localStorage "token" ∧
    (loadPosts h s).2.localStorage = s.localStorage ∧
    getItem (loadPosts h s).2.localStorage "token" = getItem s.localStorage "token" := by
  have hcreate : (createPost h s).2.localStorage = s.localStorage := by
    cases htoken : getItem s.localStorage "token" with
    | none => rw [createPost_of_no_token h s (Or.inl htoken)]
    | some t =>
      by_cases ht : t = ""
      · subst ht
        rw [createPost_of_no_token h s (Or.inr htoken)]
      · rw [createPost_of_token h s t htoken ht]
        split
        · rfl
        · split
          · exact (loadPosts_frame h _).1
          · rfl
  refine ⟨hcreate, ?_, (loadPosts_frame h s).1, ?_⟩
  · rw [hcreate]
  · rw [(loadPosts_frame h s).1]

/-- C9: `createPost` decides from the stored token alone whether it contacts
the backend: whatever the input holds, a request sent by the call is a write
request exactly when a non-empty string is stored under `token`; with the
empty string stored it does what it does with nothing stored (the
notification, no request); and empty input is sent as it is. -/
theorem createPost_decides_by_token {ν : Type} (h : Host ν) (s : Client) :
    ((∃ r ∈ (createPost h s).2.requests.drop s.requests.length, r.method = .POST) ↔
      ∃ t, getItem s.localStorage "token" = some t ∧ t ≠ "") ∧
    (getItem s.localStorage "token" = none ∨ getItem s.localStorage "token" = some "" →
      createPost h s = (.ok (), { s with alerts := s.alerts ++ [loginNotice] })) ∧
    (∀ t, getItem s.localStorage "token" = some t → t ≠ "" →
      ∃ sent, (createPost h s).2.requests
          = s.requests ++ writeRequest h (some t) s.postContentValue :: sent ∧
        (s.postContentValue = "" →
          (writeRequest h (some t) s.postContentValue).body
            = some "\x7b\"content\":\"\"\x7d")) := by
  have hsent : ∀ t, getItem s.localStorage "token" = some t → t ≠ "" →
      ∃ sent, (createPost h s).2.requests
        = s.requests ++ writeRequest h (some t) s.postContentValue :: sent := by
    intro t htoken ht
    rw [createPost_of_token h s t htoken ht]
    split
    · exact ⟨[], rfl⟩
    · split
      · exact ⟨[readRequest], by simp [(loadPosts_frame h _).2.2.2]⟩
      · exact ⟨[], rfl⟩
  refine ⟨⟨?_, ?_⟩, createPost_of_no_token h s, ?_⟩
  · rintro ⟨r, hr, _⟩
    cases htoken : getItem s.localStorage "token" with
    | none =>
      rw [createPost_of_no_token h s (Or.inl htoken)] at hr
      simp at hr
    | some t =>
      by_cases ht : t = ""
      · subst ht
        rw [createPost_of_no_token h s (Or.inr htoken)] at hr
        simp at hr
      · exact ⟨t, rfl, ht⟩
  · rintro ⟨t, htoken, ht⟩
    obtain ⟨sent, hreq⟩ := hsent t htoken ht
    refine ⟨writeRequest h (some t) s.postContentValue, ?_, rfl⟩
    rw [hreq]
    simp
  · intro t htoken ht
    obtain ⟨sent, hreq⟩ := hsent t htoken ht
    refine ⟨sent, hreq, ?_⟩
    intro hempty
    rw [writeRequest_body, hempty]
    rfl

theorem createPost_decides_by_token_witness :
    getItem emptyTokenClient.localStorage "token" = some "" ∧
    ((∃ r ∈ (createPost (demoHost true (.array [])) emptyTokenClient).2.requests.drop
        emptyTokenClient.requests.length, r.method = .POST) ↔
      ∃ t, getItem emptyTokenClient.localStorage "token" = some t ∧ t ≠ "") ∧
    createPost (demoHost true (.array [])) emptyTokenClient
      = (.ok (), { emptyTokenClient with alerts := emptyTokenClient.alerts ++ [loginNotice] }) :=
  ⟨by decide, (createPost_decides_by_token (demoHost true (.array [])) emptyTokenClient).1,
    (createPost_decides_by_token (demoHost true (.array [])) emptyTokenClient).2.1
      (Or.inr (by decide))⟩

set_option maxRecDepth 1000000 in
/-- C10: `loadPosts` does not escape the text it inserts. For every post
record whose content, slogan and username are strings, each of the three
occurs in the fragment of the post as it is, as a contiguous piece; and there
is a post, with the content `<script>x</script>`, after whose loading the
container holds that markup, which the fixed text of the template does not
contain. -/
theorem post_text_is_not_escaped :
    (∀ {ν : Type} (h : Host ν) (post user : JSValue ν) (content slogan username : String),
      isPost post = true →
      getProp post "content" = .ok (.string content) →
      getProp post "slogan" = .ok (.string slogan) →
      getProp post "user" = .ok user →
      getProp user "username" = .ok (.string username) →
      ∃ fragment, renderPost h post = .ok fragment ∧ Contains fragment content ∧
        Contains fragment slogan ∧ Contains fragment username) ∧
    (isPost scriptPost = true ∧
      getProp scriptPost "content" = .ok (.string "<script>x</script>") ∧
      Contains
        (loadPosts (demoHost true (.array [scriptPost])) emptyClient).2.postsInnerHTML
        "<script>x</script>" ∧
      ¬ Contains
        (tplOpen ++ tplHeader ++ tplSlogan ++ tplContent ++ tplLike ++ tplLikes ++ tplDate
          ++ tplClose)
        "<script>x</script>") := by
  refine ⟨?_, by decide, rfl, ?_, ?_⟩
  · intro ν h post user content slogan username hp hc hs hu hn
    cases post with
    | object props =>
      have hsub := substitutions_of_isPost h props hp
      simp only [getProp, Except.ok.injEq] at hc hs hu
      subst hu
      refine ⟨template _, (by simp only [renderPost, hsub]; rfl), ?_, ?_, ?_⟩
      · have hx := (template_contains
          { id := strOf h (lookupProp props "id")
            author := strOf h
              (logicalOr h (getPropOptional (lookupProp props "user") "username")
                (.string placeholder))
            slogan := strOf h (lookupProp props "slogan")
            content := strOf h (lookupProp props "content")
            likeId := strOf h (lookupProp props "id")
            likes := strOf h (lookupProp props "likes")
            date := h.dateToLocaleString (lookupProp props "created_at") }).2.2
        simpa [hc, strOf, toStr] using hx
      · have hx := (template_contains
          { id := strOf h (lookupProp props "id")
            author := strOf h
              (logicalOr h (getPropOptional (lookupProp props "user") "username")
                (.string placeholder))
            slogan := strOf h (lookupProp props "slogan")
            content := strOf h (lookupProp props "content")
            likeId := strOf h (lookupProp props "id")
            likes := strOf h (lookupProp props "likes")
            date := h.dateToLocaleString (lookupProp props "created_at") }).2.1
        simpa [hs, strOf, toStr] using hx
      · by_cases hempty : username = ""
        · subst hempty
          exact contains_empty _
        · have hx := (template_contains
            { id := strOf h (lookupProp props "id")
              author := strOf h
                (logicalOr h (getPropOptional (lookupProp props "user") "username")
                  (.string placeholder))
              slogan := strOf h (lookupProp props "slogan")
              content := strOf h (lookupProp props "content")
              likeId := strOf h (lookupProp props "id")
              likes := strOf h (lookupProp props "likes")
              date := h.dateToLocaleString (lookupProp props "created_at") }).1
          cases huser : lookupProp props "user" with
          | object u =>
            rw [huser] at hn
            simp only [getProp, Except.ok.injEq] at hn
            simpa [huser, hn, getPropOptional, logicalOr, toBoolean, strOf, toStr, hempty] using hx
          | _ => rw [huser] at hn; simp [getProp] at hn
    | _ => simp [isPost] at hp
  · rw [contains_iff_isInfix]
    decide
  · rw [contains_iff_isInfix]
    decide

set_option maxRecDepth 100000 in
theorem post_text_is_not_escaped_witness :
    isPost demoPost = true ∧
    getProp demoPost "content" = .ok (.string "hello") ∧
    getProp demoPost "slogan" = .ok (.string "unity") ∧
    getProp demoPost "user" = .ok (.object [("username", .string "ivan")]) ∧
    ∃ fragment, renderPost (demoHost true (.array [])) demoPost = .ok fragment ∧
      Contains fragment "hello" ∧ Contains fragment "unity" ∧ Contains fragment "ivan" :=
  ⟨by decide, rfl, rfl, rfl,
    post_text_is_not_escaped.1 (demoHost true (.array [])) demoPost
      (.object [("username", .string "ivan")]) "hello" "unity" "ivan" (by decide) rfl rfl rfl
      rfl⟩

end UnityCN
